import Mathlib

/-!
Verification of the loyalty-engine point computation and balance
reconciliation (commercetools-demo/loyalty-engine).

The TypeScript sources are shallowly embedded: JavaScript values flowing
through the service functions are modelled by an explicit `Json` type
(with `Option Json` standing for possibly-undefined record fields),
JavaScript numbers by `Rat` with `Int.floor` for `Math.floor`, thrown
exceptions by `Except String`, and external fetches by explicit lookup
functions supplied through an environment record.
-/

namespace Loyalty

/-- Model of a JavaScript/JSON value. JS `undefined` is not a `Json`
constructor: an absent field is modelled as `Option.none` at the use
site (e.g. object lookup returns `Option Json`). -/
inductive Json where
  | null
  | bool (b : Bool)
  | num (q : ℚ)
  | str (s : String)
  | arr (elems : List Json)
  | obj (fields : List (String × Json))

/-- First-match association lookup in a JSON object field list
(objects built by the code at hand never repeat keys). -/
def jlookup : List (String × Json) → String → Option Json
  | [], _ => none
  | (k, v) :: rest, key => if k = key then some v else jlookup rest key

/-- JS truthiness of a possibly-undefined string: `undefined` and the
empty string are falsy (`if (!s)` in the source). -/
def truthyS : Option String → Bool
  | none => false
  | some s => s ≠ ""

/-- JS nullish coalescing `a ?? b` on possibly-undefined JSON values:
falls through exactly on `undefined` (`none`) and `null`. -/
def jsCoalesce (a b : Option Json) : Option Json :=
  match a with
  | none => b
  | some .null => b
  | some v => some v

/-- JS nullish coalescing on possibly-undefined strings
(`amount.currencyCode ?? amount.currency` in the source; the fields are
typed `string | undefined`, so `null` does not arise). -/
def coalesceS (a b : Option String) : Option String :=
  match a with
  | none => b
  | some s => some s

/-- One row of the conversion-rate table
(`ConversionRateRow` in `index.types.ts`). -/
structure ConversionRateRow where
  currency : String
  currencyCentAmount : ℚ
  pointAmount : ℚ
deriving DecidableEq, Repr

/-- ASCII uppercase of a string, character by character (model of
JS `toUpperCase` on the ASCII code points that currency codes use). -/
def asciiUpper (s : String) : String :=
  String.mk (s.data.map Char.toUpper)

/-- Case-insensitive currency match used by `currencyToPoints`
(`r.currency.toUpperCase() === currencyCode.toUpperCase()`). -/
def rateMatches (currencyCode : String) (r : ConversionRateRow) : Bool :=
  asciiUpper r.currency == asciiUpper currencyCode

/-- Embedding of `currencyToPoints` (loyalty.service.ts, lines 56-69):
find the first row whose currency matches case-insensitively; if there
is none, or the found row has `currencyCentAmount <= 0`, return 0;
otherwise `Math.floor((centAmount / rate.currencyCentAmount) * rate.pointAmount)`. -/
def currencyToPoints (centAmount : ℚ) (currencyCode : String)
    (conversionRates : List ConversionRateRow) : ℤ :=
  match conversionRates.find? (rateMatches currencyCode) with
  | none => 0
  | some rate =>
    if rate.currencyCentAmount ≤ 0 then 0
    else ⌊centAmount / rate.currencyCentAmount * rate.pointAmount⌋

/-- Spec-side lookup, following the spec words for `rateFor`: the first
matching USABLE rate (currency matches case-insensitively and
`currencyCentAmount > 0`). Written from the spec, for comparison with
the source function `currencyToPoints`. -/
def rateForSpec (currencyCode : String)
    (table : List ConversionRateRow) : Option ConversionRateRow :=
  table.find? (fun r => rateMatches currencyCode r && decide (0 < r.currencyCentAmount))

/-- Spec-side conversion, following the spec words for `pointsFor`:
floor over the first matching usable rate, else 0. -/
def pointsForSpec (centAmount : ℚ) (currencyCode : String)
    (table : List ConversionRateRow) : ℤ :=
  match rateForSpec currencyCode table with
  | none => 0
  | some rate => ⌊centAmount / rate.currencyCentAmount * rate.pointAmount⌋

/-- Property lookup on a JSON value, for a non-null receiver: only
objects carry the looked-up fields; property access on other non-null
values yields `undefined` (`none`). Access on `null` throws in JS and
is handled separately (`rowOk`). -/
def getProp : Json → String → Option Json
  | .obj kvs, key => jlookup kvs key
  | _, _ => none

/-- Shape test for one conversion-rate row, as in `getConversionRates`:
`typeof r.currency === 'string' && typeof r.currencyCentAmount === 'number'
&& typeof r.pointAmount === 'number'`. -/
def rowShaped (r : Json) : Bool :=
  (match getProp r "currency" with | some (.str _) => true | _ => false) &&
  (match getProp r "currencyCentAmount" with | some (.num _) => true | _ => false) &&
  (match getProp r "pointAmount" with | some (.num _) => true | _ => false)

/-- Evaluation of the `every` predicate on one row: property access on a
`null` element throws a TypeError (modelled as `Except.error`); on any
other element it evaluates the shape test. -/
def rowOk : Json → Except String Bool
  | .null => .error "TypeError: cannot read properties of null"
  | r => .ok (rowShaped r)

/-- Embedding of `rows.every(...)`: left-to-right, short-circuiting at
the first false, propagating a thrown TypeError. -/
def everyRows : List Json → Except String Bool
  | [] => .ok true
  | r :: rest =>
    match rowOk r with
    | .error e => .error e
    | .ok b => if b then everyRows rest else .ok false

/-- Typed projection of a well-shaped row to `ConversionRateRow`
(the source merely casts; the defaults below are never reached on rows
that passed `rowShaped`). -/
def toRow (r : Json) : ConversionRateRow :=
  { currency := match getProp r "currency" with | some (.str s) => s | _ => ""
    currencyCentAmount := match getProp r "currencyCentAmount" with | some (.num q) => q | _ => 0
    pointAmount := match getProp r "pointAmount" with | some (.num q) => q | _ => 0 }

/-- Embedding of `getConversionRates` (loyalty.service.ts, lines 20-50)
as a function of the stored custom-object value: a non-array value
yields the empty table; an array is validated row by row by
`rows.every(...)` and yields the rows on success, the empty table on a
failed shape check; a TypeError thrown during validation propagates. -/
def getConversionRates (value : Json) : Except String (List ConversionRateRow) :=
  match value with
  | .arr rows =>
    match everyRows rows with
    | .error e => .error e
    | .ok ok => .ok (if ok then rows.map toRow else [])
  | _ => .ok []

/-- Whitespace test for the string-to-number trim. -/
def isSpaceChar (c : Char) : Bool :=
  c = ' ' || c = '\t' || c = '\n' || c = '\r'

/-- Trim leading and trailing whitespace from a character list. -/
def trimChars (cs : List Char) : List Char :=
  ((cs.dropWhile isSpaceChar).reverse.dropWhile isSpaceChar).reverse

/-- Parse a non-empty all-digit character list as a natural number. -/
def parseNatChars : List Char → Option ℕ
  | [] => none
  | cs => cs.foldl
      (fun acc c =>
        match acc with
        | some n => if c.isDigit then some (n * 10 + (c.toNat - 48)) else none
        | none => none)
      (some 0)

/-- Parse an optionally-signed decimal integer character list. -/
def parseIntChars : List Char → Option ℤ
  | '-' :: cs => (parseNatChars cs).map (fun n => -(n : ℤ))
  | '+' :: cs => (parseNatChars cs).map (fun n => (n : ℤ))
  | cs => (parseNatChars cs).map (fun n => (n : ℤ))

/-- Model of the string case of the ECMA ToNumber coercion, on the
trimmed decimal-integer fragment: a whitespace-only string coerces to
0, a signed integer literal to its value, anything else to NaN
(`none`; fractional, hex and exponent literals are outside the
fragment and none of the stored values below use them). -/
def strToNumber (s : String) : Option ℚ :=
  let cs := trimChars s.data
  if cs = [] then some 0
  else (parseIntChars cs).map (fun n => (n : ℚ))

/-- Model of the ECMA ToNumber coercion (`Number(value)` in
`getCurrentAvailablePoints`), with `none` standing for NaN. Arrays and
objects are modelled as coercing to NaN (the singleton-array cases the
full coercion would send elsewhere are not exercised below). -/
def jsToNumber : Json → Option ℚ
  | .null => some 0
  | .bool b => some (if b then 1 else 0)
  | .num q => some q
  | .str s => strToNumber s
  | .arr _ => none
  | .obj _ => none

/-- Customer custom-type expansion key (`customer.custom?.type?.obj?.key`). -/
structure TypeObj where
  key : Option String
deriving DecidableEq, Repr

/-- Customer custom-type reference (`customer.custom?.type`). -/
structure TypeRef where
  id : Option String
  obj : Option TypeObj
deriving DecidableEq, Repr

/-- Custom part of a customer entity. -/
structure CustomerCustom where
  type : Option TypeRef
  fields : Option (List (String × Json))

/-- Customer entity as read by the handlers: custom fields, custom type
and the optimistic-concurrency version token. -/
structure Customer where
  custom : Option CustomerCustom
  version : ℕ

/-- Customer custom field name for available points. -/
def AVAILABLE_POINTS_KEY : String := "availablePoints"

/-- Customer custom type key for loyalty. -/
def CUSTOMER_LOYALTY_CUSTOM_TYPE : String := "additional-customer-info"

/-- Raw stored value of the `availablePoints` custom field of a
customer (`customer.custom?.fields?.[AVAILABLE_POINTS_KEY]`),
`none` when any link in the chain is absent. -/
def availablePointsField (customer : Customer) : Option Json :=
  (customer.custom.bind (·.fields)).bind
    (fun fs => jlookup fs AVAILABLE_POINTS_KEY)

/-- Embedding of `getCurrentAvailablePoints` (loyalty.service.ts, lines
286-293): an absent or null field yields 0; otherwise the value is
coerced with `Number` and floored (`Number.isInteger(n) ? n :
Math.floor(n)`; a NaN coercion stays NaN, modelled as `none`). -/
def getCurrentAvailablePoints (customer : Customer) : Option ℤ :=
  match availablePointsField customer with
  | none => some 0
  | some .null => some 0
  | some v => (jsToNumber v).map (fun q => ⌊q⌋)

/-- Payment reference carried on an order. -/
structure PaymentRef where
  id : Option String
deriving DecidableEq, Repr

/-- Payment info on an order (`order.paymentInfo`). -/
structure PaymentInfo where
  payments : Option (List PaymentRef)
deriving DecidableEq, Repr

/-- Monetary amount as read from payments and discount portions.
`centAmount = none` models an absent or non-number field (the source
guards with `typeof amount.centAmount === 'number'`). -/
structure Amount where
  centAmount : Option ℚ
  currencyCode : Option String
  currency : Option String
deriving DecidableEq, Repr

/-- Payment entity: its planned amount. -/
structure Payment where
  amountPlanned : Option Amount
deriving DecidableEq, Repr

/-- Contribution of one payment reference inside the
`getPointsFromPayments` loop (loyalty.service.ts, lines 83-108): a
falsy id is skipped (`continue`), a failed fetch is logged and skipped
(`none` from the fetch function models the throw), an absent or
non-number planned amount contributes 0, a falsy resolved currency
contributes 0, otherwise `currencyToPoints` of the planned amount. -/
def refPoints (fetchPayment : String → Option Payment)
    (conversionRates : List ConversionRateRow) (ref : PaymentRef) : ℤ :=
  match ref.id with
  | none => 0
  | some id =>
    if id = "" then 0
    else match fetchPayment id with
      | none => 0
      | some payment =>
        match payment.amountPlanned with
        | none => 0
        | some amount =>
          match amount.centAmount with
          | none => 0
          | some centAmount =>
            match coalesceS amount.currencyCode amount.currency with
            | none => 0
            | some currency =>
              if currency = "" then 0
              else currencyToPoints centAmount currency conversionRates

/-- Cart-discount reference inside an included-discount portion. -/
structure DiscountRef where
  typeId : Option String
  id : Option String
deriving DecidableEq, Repr

/-- One included-discount portion of `order.discountOnTotalPrice`. -/
structure IncludedDiscount where
  discount : Option DiscountRef
  discountedAmount : Option Amount
deriving DecidableEq, Repr

/-- Discount-on-total-price breakdown on an order. -/
structure DiscountOnTotalPrice where
  includedDiscounts : Option (List IncludedDiscount)
deriving DecidableEq, Repr

/-- Value of a direct discount (`dd.value`). -/
structure DiscountValue where
  type : Option String
  money : Option Amount
deriving DecidableEq, Repr

/-- Direct discount entry on an order. -/
structure DirectDiscount where
  id : Option String
  value : Option DiscountValue
deriving DecidableEq, Repr

/-- Cart reference on an order (`order.cart`). -/
structure CartRef where
  id : Option String
deriving DecidableEq, Repr

/-- Order projection used by the loyalty computations. -/
structure Order where
  customerId : Option String
  cart : Option CartRef
  paymentInfo : Option PaymentInfo
  directDiscounts : Option (List DirectDiscount)
  discountOnTotalPrice : Option DiscountOnTotalPrice
deriving DecidableEq, Repr

/-- Embedding of `getPointsFromPayments` (loyalty.service.ts, lines
74-110): left fold over `order.paymentInfo?.payments ?? []`, summing
the contribution of every occurrence of a payment reference. -/
def getPointsFromPayments (order : Order)
    (fetchPayment : String → Option Payment)
    (conversionRates : List ConversionRateRow) : ℤ :=
  let payments := (order.paymentInfo.bind (·.payments)).getD []
  payments.foldl (fun acc ref => acc + refPoints fetchPayment conversionRates ref) 0

/-- Custom part of a cart-discount entity. -/
structure CartDiscountCustom where
  fields : Option (List (String × Json))

/-- Cart-discount entity as fetched when checking redemptions. -/
structure CartDiscount where
  custom : Option CartDiscountCustom

/-- Redemption flag of a cart discount, accepted under either field
spelling: `fields.isPointRedemption === true ||
fields.isPointRedemtion === true` (the `isRedemption` local). -/
def redemptionFlag (cartDiscount : CartDiscount) : Bool :=
  let fields := (cartDiscount.custom.bind (·.fields)).getD []
  (match jlookup fields "isPointRedemption" with
   | some (.bool true) => true | _ => false) ||
  (match jlookup fields "isPointRedemtion" with
   | some (.bool true) => true | _ => false)

/-- Scoped cart id of a cart discount: `fields.referenceCart ??
fields.referenceCartId` (the `refCart` local). -/
def scopedCartRef (cartDiscount : CartDiscount) : Option Json :=
  let fields := (cartDiscount.custom.bind (·.fields)).getD []
  jsCoalesce (jlookup fields "referenceCart") (jlookup fields "referenceCartId")

/-- Embedding of `isPointRedemptionDiscount` (loyalty.service.ts, lines
117-129): a falsy order cart id disqualifies everything; the redemption
flag is accepted under either field spelling; the scoped cart id is
`fields.referenceCart ?? fields.referenceCartId` and must be strictly
equal to the order cart id. -/
def isPointRedemptionDiscount (cartDiscount : CartDiscount)
    (orderCartId : Option String) : Bool :=
  match orderCartId with
  | none => false
  | some cid =>
    if cid = "" then false
    else
      if !redemptionFlag cartDiscount then false
      else
        match scopedCartRef cartDiscount with
        | some (.str s) => s = cid
        | _ => false

/-- Embedding of `getDiscountCentAmount` (loyalty.service.ts, lines
134-142): only an absolute value with a money object contributes, via
`value.money.centAmount ?? 0`. -/
def getDiscountCentAmount (value : DiscountValue) : ℚ :=
  match value.type, value.money with
  | some "absolute", some money => money.centAmount.getD 0
  | _, _ => 0

/-- Shared body of the two primary-path branches (fetch the referenced
cart discount, test `isPointRedemptionDiscount`, and convert the
discounted amount of the portion). A failed fetch contributes 0. -/
def portionBranch (fetchCartDiscount : String → Option CartDiscount)
    (orderCartId : Option String) (conversionRates : List ConversionRateRow)
    (portion : IncludedDiscount) (discountId : String) : ℤ :=
  match fetchCartDiscount discountId with
  | none => 0
  | some cartDiscount =>
    if isPointRedemptionDiscount cartDiscount orderCartId then
      match portion.discountedAmount with
      | none => 0
      | some amount =>
        match amount.centAmount with
        | none => 0
        | some centAmount =>
          match coalesceS amount.currencyCode amount.currency with
          | none => 0
          | some currency =>
            if currency = "" then 0
            else currencyToPoints centAmount currency conversionRates
    else 0

/-- Contribution of one included-discount portion in the primary path
of `getPointRedemptionPointsToDeduct` (loyalty.service.ts, lines
171-241): portions without a discount reference or with a falsy id are
skipped; the branch runs when the reference type id is
"cart-discount", and again when it is "direct-discount". -/
def portionPoints (fetchCartDiscount : String → Option CartDiscount)
    (orderCartId : Option String) (conversionRates : List ConversionRateRow)
    (portion : IncludedDiscount) : ℤ :=
  match portion.discount with
  | none => 0
  | some discountRef =>
    match discountRef.id with
    | none => 0
    | some discountId =>
      if discountId = "" then 0
      else
        (if discountRef.typeId = some "cart-discount" then
          portionBranch fetchCartDiscount orderCartId conversionRates portion discountId
         else 0)
        + (if discountRef.typeId = some "direct-discount" then
          portionBranch fetchCartDiscount orderCartId conversionRates portion discountId
         else 0)

/-- Contribution of one direct discount in the fallback path of
`getPointRedemptionPointsToDeduct` (loyalty.service.ts, lines 245-276):
requires a positive absolute cent amount and a truthy id; an
unresolvable id is silently skipped; the currency is resolved from
`dd.value?.money?.currencyCode ?? dd.value?.money?.currency`. -/
def ddPoints (fetchCartDiscount : String → Option CartDiscount)
    (orderCartId : Option String) (conversionRates : List ConversionRateRow)
    (dd : DirectDiscount) : ℤ :=
  let centAmount := getDiscountCentAmount (dd.value.getD { type := none, money := none })
  match dd.id with
  | none => 0
  | some id =>
    if centAmount ≤ 0 ∨ id = "" then 0
    else match fetchCartDiscount id with
      | none => 0
      | some cartDiscount =>
        if isPointRedemptionDiscount cartDiscount orderCartId then
          match coalesceS ((dd.value.bind (·.money)).bind (·.currencyCode))
              ((dd.value.bind (·.money)).bind (·.currency)) with
          | none => 0
          | some currency =>
            if currency = "" then 0
            else currencyToPoints centAmount currency conversionRates
        else 0

/-- Embedding of `getPointRedemptionPointsToDeduct` (loyalty.service.ts,
lines 148-280): accumulate over the included-discount portions, then,
only when that list is empty and the order has direct discounts,
continue accumulating over the direct discounts. -/
def getPointRedemptionPointsToDeduct (order : Order)
    (fetchCartDiscount : String → Option CartDiscount)
    (conversionRates : List ConversionRateRow) : ℤ :=
  let orderCartId := order.cart.bind (·.id)
  let includedDiscounts := (order.discountOnTotalPrice.bind (·.includedDiscounts)).getD []
  let totalAfterPrimary := includedDiscounts.foldl
    (fun acc portion =>
      acc + portionPoints fetchCartDiscount orderCartId conversionRates portion) 0
  if includedDiscounts.length = 0 ∧ 0 < (order.directDiscounts.getD []).length then
    (order.directDiscounts.getD []).foldl
      (fun acc dd => acc + ddPoints fetchCartDiscount orderCartId conversionRates dd)
      totalAfterPrimary
  else totalAfterPrimary

/-- Outcome of one customer-update write attempt. -/
inductive WriteOutcome where
  | ok
  | versionConflict
deriving DecidableEq, Repr

/-- Customer update action issued by the handlers. -/
inductive CustomerUpdateAction where
  | setCustomType (typeKey : String)
  | setCustomField (field : String) (value : Option ℤ)
deriving DecidableEq, Repr

/-- Environment of one event handling: the fetched order and customer,
the stored conversion-rate configuration value, the discount and
payment stores, and the outcome the platform gives to the n-th
customer-update write attempt. -/
structure Env where
  order : Order
  ratesValue : Json
  fetchPayment : String → Option Payment
  fetchCartDiscount : String → Option CartDiscount
  customer : Customer
  writeOutcome : ℕ → WriteOutcome

/-- Modelled from the spec: `getRedemptionRates` is imported and called
by the event controller but its definition is not among the given
sources. Per the spec (RedemptionPointCalculator "converts their
discounted amounts into points-to-deduct, using ConversionTable", and a
single conversion-rate configuration record), it is modelled as loading
the same stored conversion-rate value. -/
def getRedemptionRates (env : Env) : Except String (List ConversionRateRow) :=
  getConversionRates env.ratesValue

/-- Result of running a handler: an exception propagated out (with the
number of customer-write attempts made before it), a skip at one of the
gates, or a completed customer update carrying the written balance
value, the update actions, and the write-attempt count. -/
inductive HandlerResult where
  | thrown (msg : String) (writeAttempts : ℕ)
  | skippedNoCustomer
  | skippedNoRates
  | applied (written : Option ℤ) (actions : List CustomerUpdateAction) (writeAttempts : ℕ)
deriving DecidableEq, Repr

/-- Number of customer-write attempts recorded in a handler result. -/
def writeAttemptsOf : HandlerResult → ℕ
  | .thrown _ n => n
  | .applied _ _ n => n
  | _ => 0

/-- Condition for prepending a `setCustomType` action in
`handleOrderCreated`: `!customer.custom?.type?.id ||
customer.custom?.type?.obj?.key !== CUSTOMER_LOYALTY_CUSTOM_TYPE`. -/
def needsTypeActionCreated (customer : Customer) : Bool :=
  (!truthyS ((customer.custom.bind (·.type)).bind (·.id))) ||
  decide ((((customer.custom.bind (·.type)).bind (·.obj)).bind (·.key))
    ≠ some CUSTOMER_LOYALTY_CUSTOM_TYPE)

/-- Condition for prepending a `setCustomType` action in
`handleOrderCancelled`: `!customer.custom?.type?.id`. -/
def needsTypeActionCancelled (customer : Customer) : Bool :=
  !truthyS ((customer.custom.bind (·.type)).bind (·.id))

/-- Embedding of `handleOrderCreated` (event controller, lines 95-174):
skip on a falsy customer id; load the conversion table (a throw
propagates) and skip when it is empty; load the redemption-rate table;
compute earned and deducted points; read the customer balance; write
`max(0, current + earned - deducted)` with the required actions in one
update attempt whose outcome the environment decides. -/
def handleOrderCreated (env : Env) : HandlerResult :=
  let order := env.order
  if truthyS order.customerId = false then .skippedNoCustomer
  else
    match getConversionRates env.ratesValue with
    | .error e => .thrown e 0
    | .ok conversionRates =>
      if conversionRates.length = 0 then .skippedNoRates
      else
        match getRedemptionRates env with
        | .error e => .thrown e 0
        | .ok redemptionRates =>
          let pointsFromPayments :=
            getPointsFromPayments order env.fetchPayment conversionRates
          let pointsToDeduct :=
            getPointRedemptionPointsToDeduct order env.fetchCartDiscount redemptionRates
          let customer := env.customer
          let currentPoints := getCurrentAvailablePoints customer
          let newPoints := currentPoints.map
            (fun c => max 0 (c + pointsFromPayments - pointsToDeduct))
          let actions :=
            (if needsTypeActionCreated customer then
              [CustomerUpdateAction.setCustomType CUSTOMER_LOYALTY_CUSTOM_TYPE]
             else [])
            ++ [CustomerUpdateAction.setCustomField AVAILABLE_POINTS_KEY newPoints]
          match env.writeOutcome 0 with
          | .ok => .applied newPoints actions 1
          | .versionConflict => .thrown "ConcurrentModification" 1

/-- Embedding of `handleOrderCancelled` (event controller, lines
179-254): as `handleOrderCreated` but the written balance is
`max(0, current - pointsFromPayments + pointsToAddBack)` and the
custom-type action is prepended only when the customer has no custom
type id. -/
def handleOrderCancelled (env : Env) : HandlerResult :=
  let order := env.order
  if truthyS order.customerId = false then .skippedNoCustomer
  else
    match getConversionRates env.ratesValue with
    | .error e => .thrown e 0
    | .ok conversionRates =>
      if conversionRates.length = 0 then .skippedNoRates
      else
        match getRedemptionRates env with
        | .error e => .thrown e 0
        | .ok redemptionRates =>
          let pointsFromPayments :=
            getPointsFromPayments order env.fetchPayment conversionRates
          let pointsToAddBack :=
            getPointRedemptionPointsToDeduct order env.fetchCartDiscount redemptionRates
          let customer := env.customer
          let currentPoints := getCurrentAvailablePoints customer
          let newPoints := currentPoints.map
            (fun c => max 0 (c - pointsFromPayments + pointsToAddBack))
          let actions :=
            (if needsTypeActionCancelled customer then
              [CustomerUpdateAction.setCustomType CUSTOMER_LOYALTY_CUSTOM_TYPE]
             else [])
            ++ [CustomerUpdateAction.setCustomField AVAILABLE_POINTS_KEY newPoints]
          match env.writeOutcome 0 with
          | .ok => .applied newPoints actions 1
          | .versionConflict => .thrown "ConcurrentModification" 1

/-! General helper lemmas shared by the claim theorems. -/

theorem foldl_add_eq_sum {α : Type} (f : α → ℤ) (init : ℤ) (l : List α) :
    l.foldl (fun acc x => acc + f x) init = init + (l.map f).sum := by
  induction l generalizing init with
  | nil => simp
  | cons x xs ih => simp [ih, add_assoc]

theorem find?_append_first {α : Type} (p : α → Bool) (t₁ : List α) (r : α)
    (t₂ : List α) (h₁ : ∀ x ∈ t₁, p x = false) (hr : p r = true) :
    (t₁ ++ r :: t₂).find? p = some r := by
  induction t₁ with
  | nil => simp [List.find?, hr]
  | cons a as ih =>
    have ha : p a = false := h₁ a (by simp)
    simpa [List.find?, ha] using ih (fun x hx => h₁ x (by simp [hx]))

theorem rowOk_of_ne_null (r : Json) (h : r ≠ .null) :
    rowOk r = .ok (rowShaped r) := by
  cases r <;> first | rfl | exact absurd rfl h

theorem everyRows_eq_all (rows : List Json) (h : Json.null ∉ rows) :
    everyRows rows = .ok (rows.all rowShaped) := by
  induction rows with
  | nil => rfl
  | cons r rs ih =>
    have hr : r ≠ Json.null := fun e => h (e ▸ List.mem_cons_self r rs)
    have hok := rowOk_of_ne_null r hr
    by_cases hs : rowShaped r = true
    · simp [everyRows, hok, hs, ih (fun e => h (List.mem_cons_of_mem r e))]
    · simp [everyRows, hok, Bool.eq_false_iff.mpr hs, List.all_cons]

/-! Claim C2. -/

/-- Concrete conversion table for claim C2: two rows for USD, the first
unusable (`currencyCentAmount = 0`), the second usable. -/
def tableC2 : List ConversionRateRow :=
  [⟨"USD", 0, 10⟩, ⟨"USD", 100, 10⟩]

/-- C2, counterexample: the claim says the conversion selects the first
rate that matches AND is usable, which on `tableC2` at 100 cents is the
second row, giving floor(100 / 100 * 10) = 10; the source function
returns 0 because it takes the first currency match, finds it unusable,
and never consults the later usable match. -/
theorem c2_counterexample :
    currencyToPoints 100 "USD" tableC2 = 0 ∧
    rateForSpec "USD" tableC2 = some ⟨"USD", 100, 10⟩ ∧
    pointsForSpec 100 "USD" tableC2 = 10 := by
  refine ⟨?_, ?_, ?_⟩ <;>
    simp +decide [currencyToPoints, rateForSpec, pointsForSpec, rateMatches,
      asciiUpper, tableC2, List.find?]

/-- C2, amended: `currencyToPoints` selects the FIRST rate whose
currency matches case-insensitively, regardless of usability; with no
match the result is 0, and when the first match is unusable
(`currencyCentAmount <= 0`) the result is 0 even if a later matching
rate is usable; only a usable first match yields
floor(centAmount / currencyCentAmount * pointAmount). -/
theorem c2_first_match_only (centAmount : ℚ) (currencyCode : String)
    (table : List ConversionRateRow) :
    ((∀ r ∈ table, rateMatches currencyCode r = false) →
      currencyToPoints centAmount currencyCode table = 0) ∧
    (∀ t₁ r t₂, table = t₁ ++ r :: t₂ →
      (∀ x ∈ t₁, rateMatches currencyCode x = false) →
      rateMatches currencyCode r = true →
      currencyToPoints centAmount currencyCode table =
        if r.currencyCentAmount ≤ 0 then 0
        else ⌊centAmount / r.currencyCentAmount * r.pointAmount⌋) := by
  constructor
  · intro h
    have hnone : table.find? (rateMatches currencyCode) = none :=
      List.find?_eq_none.mpr (fun x hx => by simp [h x hx])
    simp [currencyToPoints, hnone]
  · intro t₁ r t₂ ht h₁ hr
    have hfind : table.find? (rateMatches currencyCode) = some r :=
      ht ▸ find?_append_first _ t₁ r t₂ h₁ hr
    simp [currencyToPoints, hfind]

/-- C2, witness for the amended theorem: on `tableC2` the first USD
match is the unusable first row, so the unusable-first-match branch
applies and the result is 0. -/
theorem c2_first_match_only_witness :
    currencyToPoints 100 "USD" tableC2 =
      if (⟨"USD", 0, 10⟩ : ConversionRateRow).currencyCentAmount ≤ 0 then 0
      else ⌊(100 : ℚ) / (⟨"USD", 0, 10⟩ : ConversionRateRow).currencyCentAmount
        * (⟨"USD", 0, 10⟩ : ConversionRateRow).pointAmount⌋ :=
  (c2_first_match_only 100 "USD" tableC2).2 [] ⟨"USD", 0, 10⟩ [⟨"USD", 100, 10⟩]
    rfl (by simp) (by decide)

/-! Claim C7. -/

/-- C7, counterexample: an array containing a null element makes the
shape validation throw a TypeError (property access on null), so
loading fails instead of succeeding with the empty table as the claim
states for every array with an ill-shaped element. -/
theorem c7_counterexample :
    getConversionRates (.arr [.null]) =
      .error "TypeError: cannot read properties of null" := rfl

/-- C7, amended: loading never fails on a stored value that is not an
array (empty table), nor on an array without null elements (parsed
rows when every element is well-shaped, empty table otherwise); only an
array whose validation scan reaches a null element throws. -/
theorem c7_soft_failure (value : Json) :
    ((∀ rows, value ≠ .arr rows) → getConversionRates value = .ok []) ∧
    (∀ rows, value = .arr rows → Json.null ∉ rows →
      getConversionRates value =
        .ok (if rows.all rowShaped then rows.map toRow else [])) := by
  constructor
  · intro h
    cases value <;> first | rfl | exact absurd rfl (h _)
  · rintro rows rfl hnull
    simp [getConversionRates, everyRows_eq_all rows hnull]

/-- Well-shaped conversion-rate row used by the C7 witness. -/
def goodRowC7 : Json :=
  .obj [("currency", .str "USD"), ("currencyCentAmount", .num 100),
    ("pointAmount", .num 1)]

/-- C7, witness for the amended theorem: a non-array value and two
null-free arrays (one well-shaped, one not) all load successfully. -/
theorem c7_soft_failure_witness :
    getConversionRates (.num 5) = .ok [] ∧
    getConversionRates (.arr [goodRowC7]) = .ok [⟨"USD", 100, 1⟩] ∧
    getConversionRates (.arr [.str "bad"]) = .ok [] := by
  refine ⟨(c7_soft_failure (.num 5)).1 (fun rows h => Json.noConfusion h), ?_, ?_⟩
  · have h := (c7_soft_failure (.arr [goodRowC7])).2 [goodRowC7] rfl
      (by simp [goodRowC7])
    simpa [goodRowC7, rowShaped, getProp, jlookup, toRow] using h
  · have h := (c7_soft_failure (.arr [.str "bad"])).2 [.str "bad"] rfl (by simp)
    simpa [rowShaped, getProp] using h

/-! Claim C8. -/

/-- Order for claim C8: the same payment reference listed twice. -/
def ordC8 : Order :=
  { customerId := none, cart := none,
    paymentInfo := some ⟨some [⟨some "pay-1"⟩, ⟨some "pay-1"⟩]⟩,
    directDiscounts := none, discountOnTotalPrice := none }

/-- Payment store for claim C8: one payment of 100 cents USD. -/
def fetchC8 : String → Option Payment :=
  fun id => if id = "pay-1" then some ⟨some ⟨some 100, some "USD", none⟩⟩ else none

/-- Rate table for claim C8: 100 cents USD = 1 point. -/
def ratesC8 : List ConversionRateRow := [⟨"USD", 100, 1⟩]

/-- C8, counterexample: the payment alone is worth 1 point, and the
order lists its reference twice; the claimed deduplicated sum would be
1, but the computed sum is 2 - each occurrence is counted. -/
theorem c8_counterexample :
    refPoints fetchC8 ratesC8 ⟨some "pay-1"⟩ = 1 ∧
    getPointsFromPayments ordC8 fetchC8 ratesC8 = 2 := by
  constructor <;>
    simp +decide [refPoints, fetchC8, ratesC8, coalesceS, currencyToPoints,
      rateMatches, asciiUpper, List.find?, getPointsFromPayments, ordC8,
      List.foldl]

/-- C8, amended: `getPointsFromPayments` performs no deduplication; the
returned sum counts every occurrence of a payment reference in the
order's payment list separately. -/
theorem c8_per_occurrence (order : Order)
    (fetchPayment : String → Option Payment)
    (conversionRates : List ConversionRateRow) :
    getPointsFromPayments order fetchPayment conversionRates =
      (((order.paymentInfo.bind (·.payments)).getD []).map
        (refPoints fetchPayment conversionRates)).sum := by
  simp [getPointsFromPayments, foldl_add_eq_sum]

/-! Claim C3. -/

/-- C3: exactly one path of the redemption computation contributes. With
a non-empty included-discounts breakdown the result is the sum over the
breakdown alone - direct discounts appear nowhere in it; with an empty
breakdown and direct discounts present the result is the fallback sum
over the direct discounts; with neither the result is 0. -/
theorem c3_single_path (order : Order)
    (fetchCartDiscount : String → Option CartDiscount)
    (conversionRates : List ConversionRateRow) :
    ((order.discountOnTotalPrice.bind (·.includedDiscounts)).getD [] ≠ [] →
      getPointRedemptionPointsToDeduct order fetchCartDiscount conversionRates =
        (((order.discountOnTotalPrice.bind (·.includedDiscounts)).getD []).map
          (portionPoints fetchCartDiscount (order.cart.bind (·.id)) conversionRates)).sum) ∧
    ((order.discountOnTotalPrice.bind (·.includedDiscounts)).getD [] = [] →
      order.directDiscounts.getD [] ≠ [] →
      getPointRedemptionPointsToDeduct order fetchCartDiscount conversionRates =
        ((order.directDiscounts.getD []).map
          (ddPoints fetchCartDiscount (order.cart.bind (·.id)) conversionRates)).sum) ∧
    ((order.discountOnTotalPrice.bind (·.includedDiscounts)).getD [] = [] →
      order.directDiscounts.getD [] = [] →
      getPointRedemptionPointsToDeduct order fetchCartDiscount conversionRates = 0) := by
  refine ⟨?_, ?_, ?_⟩
  · intro h1
    simp [getPointRedemptionPointsToDeduct, foldl_add_eq_sum,
      List.length_eq_zero, h1]
  · intro h1 h2
    simp [getPointRedemptionPointsToDeduct, foldl_add_eq_sum, h1,
      List.length_pos.mpr h2]
  · intro h1 h2
    simp [getPointRedemptionPointsToDeduct, h1, h2]

/-- Cart discount store for claim C3: one redemption discount scoped to
cart "cart-1". -/
def fetchCdC3 : String → Option CartDiscount :=
  fun id =>
    if id = "cd-1" then
      some ⟨some ⟨some [("isPointRedemption", .bool true),
        ("referenceCart", .str "cart-1")]⟩⟩
    else none

/-- Rate table for claim C3: 100 cents USD = 1 point. -/
def ratesC3 : List ConversionRateRow := [⟨"USD", 100, 1⟩]

/-- Included portion for claim C3: 200 cents USD through cart discount
"cd-1". -/
def portionC3 : IncludedDiscount :=
  ⟨some ⟨some "cart-discount", some "cd-1"⟩, some ⟨some 200, some "USD", none⟩⟩

/-- Direct discount for claim C3: 500 cents USD through the same cart
discount (would be worth 5 points if the fallback also ran). -/
def ddC3 : DirectDiscount :=
  ⟨some "cd-1", some ⟨some "absolute", some ⟨some 500, some "USD", none⟩⟩⟩

/-- Order for claim C3 with both discount representations present. -/
def orderC3 : Order :=
  { customerId := none, cart := some ⟨some "cart-1"⟩, paymentInfo := none,
    directDiscounts := some [ddC3],
    discountOnTotalPrice := some ⟨some [portionC3]⟩ }

/-- Order for claim C3 with only direct discounts. -/
def orderC3b : Order :=
  { customerId := none, cart := some ⟨some "cart-1"⟩, paymentInfo := none,
    directDiscounts := some [ddC3], discountOnTotalPrice := none }

/-- C3, witness: on an order carrying both representations only the
primary sum is returned; on an order with only direct discounts the
fallback sum is returned. -/
theorem c3_single_path_witness :
    getPointRedemptionPointsToDeduct orderC3 fetchCdC3 ratesC3 =
      ([portionC3].map
        (portionPoints fetchCdC3 (some "cart-1") ratesC3)).sum ∧
    getPointRedemptionPointsToDeduct orderC3b fetchCdC3 ratesC3 =
      ([ddC3].map (ddPoints fetchCdC3 (some "cart-1") ratesC3)).sum := by
  constructor
  · exact (c3_single_path orderC3 fetchCdC3 ratesC3).1 (by simp [orderC3])
  · exact (c3_single_path orderC3b fetchCdC3 ratesC3).2.1 (by simp [orderC3b])
      (by simp [orderC3b])

/-! Claim C4. -/

/-- C4: a fetched cart discount qualifies for deduction exactly when
the order cart id is present (and truthy), the redemption flag holds
under either accepted field spelling, and the scoped cart id
(referenceCart falling back to referenceCartId) is exactly the order
cart id string; with no order cart id nothing qualifies. -/
theorem c4_qualification (cartDiscount : CartDiscount)
    (orderCartId : Option String) :
    (isPointRedemptionDiscount cartDiscount orderCartId = true ↔
      ∃ cid, orderCartId = some cid ∧ cid ≠ "" ∧
        redemptionFlag cartDiscount = true ∧
        scopedCartRef cartDiscount = some (.str cid)) ∧
    isPointRedemptionDiscount cartDiscount none = false := by
  refine ⟨?_, rfl⟩
  cases orderCartId with
  | none => simp [isPointRedemptionDiscount]
  | some cid =>
    simp only [isPointRedemptionDiscount]
    by_cases hc : cid = ""
    · subst hc
      simp
    · rw [if_neg hc]
      by_cases hf : redemptionFlag cartDiscount = true
      · rw [hf]
        cases hs : scopedCartRef cartDiscount with
        | none => simp [hc, hf, hs]
        | some v =>
          cases v <;> simp [hc, hf, hs]
      · have hf' : redemptionFlag cartDiscount = false :=
          Bool.not_eq_true _ ▸ (by simpa using hf)
        simp [hf']

/-- Cart discount for the C4 witness: flagged under the historical
spelling and scoped to cart "cart-9". -/
def cdC4 : CartDiscount :=
  ⟨some ⟨some [("isPointRedemtion", .bool true),
    ("referenceCart", .str "cart-9")]⟩⟩

/-- C4, witness: the discount qualifies against its own cart id and
nothing qualifies without an order cart id. -/
theorem c4_qualification_witness :
    isPointRedemptionDiscount cdC4 (some "cart-9") = true ∧
    isPointRedemptionDiscount cdC4 none = false := by
  constructor
  · exact (c4_qualification cdC4 (some "cart-9")).1.mpr
      ⟨"cart-9", rfl, by decide,
        by simp [redemptionFlag, cdC4, jlookup],
        by simp [scopedCartRef, cdC4, jlookup, jsCoalesce]⟩
  · exact (c4_qualification cdC4 none).2

/-! Claim C9. -/

/-- Customer for claim C9 with a boolean stored balance. -/
def custC9 : Customer := ⟨some ⟨none, some [("availablePoints", .bool true)]⟩, 1⟩

/-- Customer for claim C9 with a non-numeric string stored balance. -/
def custC9str : Customer := ⟨some ⟨none, some [("availablePoints", .str "abc")]⟩, 1⟩

/-- C9, counterexample: a stored boolean true is non-numeric but reads
as 1, not the claimed 0; a non-numeric string reads as NaN (modelled
`none`), also not 0 - the default to 0 applies only to absent and null
values. -/
theorem c9_counterexample :
    getCurrentAvailablePoints custC9 = some 1 ∧
    getCurrentAvailablePoints custC9 ≠ some 0 ∧
    getCurrentAvailablePoints custC9str = none := by
  refine ⟨?_, ?_, ?_⟩ <;>
    simp +decide [getCurrentAvailablePoints, availablePointsField, custC9,
      custC9str, jlookup, jsToNumber, AVAILABLE_POINTS_KEY]

/-- C9, amended: reading the balance returns 0 exactly for an absent or
null field; a numeric value is floored, never rounded or rejected; any
other value goes through the Number coercion - a boolean reads as its
0/1 coercion and a value coercing to NaN reads as NaN (`none`), not 0. -/
theorem c9_read_semantics (customer : Customer) :
    (availablePointsField customer = none →
      getCurrentAvailablePoints customer = some 0) ∧
    (availablePointsField customer = some .null →
      getCurrentAvailablePoints customer = some 0) ∧
    (∀ q : ℚ, availablePointsField customer = some (.num q) →
      getCurrentAvailablePoints customer = some ⌊q⌋) ∧
    (∀ b : Bool, availablePointsField customer = some (.bool b) →
      getCurrentAvailablePoints customer = some (if b then 1 else 0)) ∧
    (∀ kvs, availablePointsField customer = some (.obj kvs) →
      getCurrentAvailablePoints customer = none) := by
  refine ⟨?_, ?_, ?_, ?_, ?_⟩
  · intro h; simp [getCurrentAvailablePoints, h]
  · intro h; simp [getCurrentAvailablePoints, h]
  · intro q h; simp [getCurrentAvailablePoints, h, jsToNumber]
  · intro b h
    cases b <;> simp [getCurrentAvailablePoints, h, jsToNumber]
  · intro kvs h; simp [getCurrentAvailablePoints, h, jsToNumber]

/-- Customer for the C9 witness with a fractional stored balance. -/
def custC9frac : Customer :=
  ⟨some ⟨none, some [("availablePoints", .num (5 / 2))]⟩, 1⟩

/-- C9, witness: a stored 5/2 reads as its floor 2. -/
theorem c9_read_semantics_witness :
    getCurrentAvailablePoints custC9frac = some 2 := by
  have h := (c9_read_semantics custC9frac).2.2.1 (5 / 2) rfl
  rw [h]
  norm_num

/-! Handler-level helper lemmas. -/

theorem handleOrderCreated_eq_of_rates (env : Env)
    (rates : List ConversionRateRow)
    (hcust : truthyS env.order.customerId = true)
    (hrates : getConversionRates env.ratesValue = .ok rates)
    (hne : rates ≠ []) :
    handleOrderCreated env =
      match env.writeOutcome 0 with
      | .ok =>
        .applied
          ((getCurrentAvailablePoints env.customer).map
            (fun c => max 0 (c
              + getPointsFromPayments env.order env.fetchPayment rates
              - getPointRedemptionPointsToDeduct env.order env.fetchCartDiscount rates)))
          ((if needsTypeActionCreated env.customer then
              [CustomerUpdateAction.setCustomType CUSTOMER_LOYALTY_CUSTOM_TYPE]
            else [])
            ++ [CustomerUpdateAction.setCustomField AVAILABLE_POINTS_KEY
              ((getCurrentAvailablePoints env.customer).map
                (fun c => max 0 (c
                  + getPointsFromPayments env.order env.fetchPayment rates
                  - getPointRedemptionPointsToDeduct env.order env.fetchCartDiscount rates)))])
          1
      | .versionConflict => .thrown "ConcurrentModification" 1 := by
  simp only [handleOrderCreated, getRedemptionRates, hrates, hcust]
  simp [List.length_eq_zero, hne]

theorem handleOrderCancelled_eq_of_rates (env : Env)
    (rates : List ConversionRateRow)
    (hcust : truthyS env.order.customerId = true)
    (hrates : getConversionRates env.ratesValue = .ok rates)
    (hne : rates ≠ []) :
    handleOrderCancelled env =
      match env.writeOutcome 0 with
      | .ok =>
        .applied
          ((getCurrentAvailablePoints env.customer).map
            (fun c => max 0 (c
              - getPointsFromPayments env.order env.fetchPayment rates
              + getPointRedemptionPointsToDeduct env.order env.fetchCartDiscount rates)))
          ((if needsTypeActionCancelled env.customer then
              [CustomerUpdateAction.setCustomType CUSTOMER_LOYALTY_CUSTOM_TYPE]
            else [])
            ++ [CustomerUpdateAction.setCustomField AVAILABLE_POINTS_KEY
              ((getCurrentAvailablePoints env.customer).map
                (fun c => max 0 (c
                  - getPointsFromPayments env.order env.fetchPayment rates
                  + getPointRedemptionPointsToDeduct env.order env.fetchCartDiscount rates)))])
          1
      | .versionConflict => .thrown "ConcurrentModification" 1 := by
  simp only [handleOrderCancelled, getRedemptionRates, hrates, hcust]
  simp [List.length_eq_zero, hne]

theorem handleOrderCreated_applied_shape (env : Env) (w : Option ℤ)
    (acts : List CustomerUpdateAction) (k : ℕ)
    (h : handleOrderCreated env = .applied w acts k) :
    ∃ t : ℤ, w = (getCurrentAvailablePoints env.customer).map
      (fun c => max 0 (c + t)) := by
  by_cases hcust : truthyS env.order.customerId = true
  · cases hrates : getConversionRates env.ratesValue with
    | error e => simp [handleOrderCreated, hcust, hrates] at h
    | ok rates =>
      by_cases hlen : rates.length = 0
      · simp [handleOrderCreated, hcust, hrates, hlen] at h
      · cases hwo : env.writeOutcome 0 with
        | versionConflict =>
          simp [handleOrderCreated, getRedemptionRates, hcust, hrates, hlen, hwo] at h
        | ok =>
          rw [handleOrderCreated_eq_of_rates env rates hcust hrates
            (fun e => hlen (by simp [e])), hwo] at h
          simp only [HandlerResult.applied.injEq] at h
          obtain ⟨hw, -, -⟩ := h
          refine ⟨getPointsFromPayments env.order env.fetchPayment rates
            - getPointRedemptionPointsToDeduct env.order env.fetchCartDiscount rates, ?_⟩
          have harg : ∀ c : ℤ,
              c + getPointsFromPayments env.order env.fetchPayment rates
                - getPointRedemptionPointsToDeduct env.order env.fetchCartDiscount rates
              = c + (getPointsFromPayments env.order env.fetchPayment rates
                - getPointRedemptionPointsToDeduct env.order env.fetchCartDiscount rates) :=
            fun c => by ring
          rw [← hw]
          simp only [harg]
  · have hfalse : truthyS env.order.customerId = false := by
      revert hcust; cases truthyS env.order.customerId <;> simp
    simp [handleOrderCreated, hfalse] at h

theorem handleOrderCancelled_applied_shape (env : Env) (w : Option ℤ)
    (acts : List CustomerUpdateAction) (k : ℕ)
    (h : handleOrderCancelled env = .applied w acts k) :
    ∃ t : ℤ, w = (getCurrentAvailablePoints env.customer).map
      (fun c => max 0 (c + t)) := by
  by_cases hcust : truthyS env.order.customerId = true
  · cases hrates : getConversionRates env.ratesValue with
    | error e => simp [handleOrderCancelled, hcust, hrates] at h
    | ok rates =>
      by_cases hlen : rates.length = 0
      · simp [handleOrderCancelled, hcust, hrates, hlen] at h
      · cases hwo : env.writeOutcome 0 with
        | versionConflict =>
          simp [handleOrderCancelled, getRedemptionRates, hcust, hrates, hlen, hwo] at h
        | ok =>
          rw [handleOrderCancelled_eq_of_rates env rates hcust hrates
            (fun e => hlen (by simp [e])), hwo] at h
          simp only [HandlerResult.applied.injEq] at h
          obtain ⟨hw, -, -⟩ := h
          refine ⟨getPointRedemptionPointsToDeduct env.order env.fetchCartDiscount rates
            - getPointsFromPayments env.order env.fetchPayment rates, ?_⟩
          have harg : ∀ c : ℤ,
              c - getPointsFromPayments env.order env.fetchPayment rates
                + getPointRedemptionPointsToDeduct env.order env.fetchCartDiscount rates
              = c + (getPointRedemptionPointsToDeduct env.order env.fetchCartDiscount rates
                - getPointsFromPayments env.order env.fetchPayment rates) :=
            fun c => by ring
          rw [← hw]
          simp only [harg]
  · have hfalse : truthyS env.order.customerId = false := by
      revert hcust; cases truthyS env.order.customerId <;> simp
    simp [handleOrderCancelled, hfalse] at h

/-! Claim C1. -/

/-- C1: with the gates passed (truthy customer id, non-empty conversion
table) and a numeric current balance c, the forward handler writes
exactly max(0, c + earned - deducted), the reversal handler writes
exactly max(0, c - earned + deducted), and both written balances are
non-negative. -/
theorem c1_balance_formula (env : Env) (c : ℤ)
    (rates : List ConversionRateRow)
    (hcust : truthyS env.order.customerId = true)
    (hrates : getConversionRates env.ratesValue = .ok rates)
    (hne : rates ≠ [])
    (hcur : getCurrentAvailablePoints env.customer = some c)
    (hwrite : env.writeOutcome 0 = .ok) :
    (∃ acts, handleOrderCreated env = .applied
      (some (max 0 (c + getPointsFromPayments env.order env.fetchPayment rates
        - getPointRedemptionPointsToDeduct env.order env.fetchCartDiscount rates))) acts 1) ∧
    (∃ acts, handleOrderCancelled env = .applied
      (some (max 0 (c - getPointsFromPayments env.order env.fetchPayment rates
        + getPointRedemptionPointsToDeduct env.order env.fetchCartDiscount rates))) acts 1) ∧
    0 ≤ max 0 (c + getPointsFromPayments env.order env.fetchPayment rates
      - getPointRedemptionPointsToDeduct env.order env.fetchCartDiscount rates) ∧
    0 ≤ max 0 (c - getPointsFromPayments env.order env.fetchPayment rates
      + getPointRedemptionPointsToDeduct env.order env.fetchCartDiscount rates) := by
  have h1 := handleOrderCreated_eq_of_rates env rates hcust hrates hne
  have h2 := handleOrderCancelled_eq_of_rates env rates hcust hrates hne
  rw [hwrite] at h1 h2
  simp only [hcur, Option.map_some'] at h1 h2
  exact ⟨⟨_, h1⟩, ⟨_, h2⟩, le_max_left _ _, le_max_left _ _⟩

/-- Conversion table for the C1 witness. -/
def ratesC1 : List ConversionRateRow := [⟨"USD", 100, 1⟩]

/-- Stored conversion-rate value used by the C1, C5, C6 and C10
witness environments: one row, 100 cents USD = 1 point. -/
def usdRatesValue : Json :=
  .arr [.obj [("currency", .str "USD"), ("currencyCentAmount", .num 100),
    ("pointAmount", .num 1)]]

/-- Order for the C1 witness: one payment reference, no discounts. -/
def ordC1 : Order :=
  ⟨some "cust-1", none, some ⟨some [⟨some "pay-1"⟩]⟩, none, none⟩

/-- Customer for the C1 witness: loyalty type attached, balance 10. -/
def custC1 : Customer :=
  ⟨some ⟨some ⟨some "t-1", some ⟨some "additional-customer-info"⟩⟩,
    some [("availablePoints", .num 10)]⟩, 3⟩

/-- Environment for the C1 witness: one 500-cent USD payment, no
redemption discounts, current balance 10. -/
def envC1 : Env :=
  ⟨ordC1, usdRatesValue,
    fun id => if id = "pay-1" then some ⟨some ⟨some 500, some "USD", none⟩⟩ else none,
    fun _ => none, custC1, fun _ => .ok⟩

/-- C1, witness: earning 5 points on a balance of 10 writes 15. -/
theorem c1_balance_formula_witness :
    ∃ acts, handleOrderCreated envC1 = .applied (some 15) acts 1 := by
  obtain ⟨⟨acts, hacts⟩, -, -, -⟩ := c1_balance_formula envC1 10 ratesC1
    (by decide)
    (by simp +decide [getConversionRates, envC1, usdRatesValue, ratesC1,
      everyRows, rowOk, rowShaped, getProp, jlookup, toRow])
    (by decide)
    (by simp +decide [getCurrentAvailablePoints, availablePointsField, envC1,
      custC1, jlookup, jsToNumber, AVAILABLE_POINTS_KEY])
    rfl
  refine ⟨acts, ?_⟩
  rw [hacts]
  have hE : getPointsFromPayments envC1.order envC1.fetchPayment ratesC1 = 5 := by
    simp +decide [getPointsFromPayments, refPoints, envC1, ordC1, ratesC1,
      coalesceS, currencyToPoints, rateMatches, asciiUpper, List.find?,
      List.foldl]
    norm_num
  have hD : getPointRedemptionPointsToDeduct envC1.order envC1.fetchCartDiscount
      ratesC1 = 0 := by
    simp [getPointRedemptionPointsToDeduct, envC1, ordC1]
  rw [hE, hD]
  norm_num

/-! Claim C5. -/

/-- C5: the table used for the redemption-point (deduction) computation
is the very same table that was loaded for the event, checked non-empty
at the gate and used for the earned-points computation (with
`getRedemptionRates` modelled from the spec as loading the single
stored conversion-rate value). -/
theorem c5_same_table (env : Env) (rates : List ConversionRateRow)
    (hrates : getConversionRates env.ratesValue = .ok rates)
    (hne : rates ≠ [])
    (hcust : truthyS env.order.customerId = true) :
    getRedemptionRates env = .ok rates ∧
    (∀ c : ℤ, getCurrentAvailablePoints env.customer = some c →
      env.writeOutcome 0 = .ok →
      (∃ acts, handleOrderCreated env = .applied
        (some (max 0 (c + getPointsFromPayments env.order env.fetchPayment rates
          - getPointRedemptionPointsToDeduct env.order env.fetchCartDiscount rates))) acts 1) ∧
      (∃ acts, handleOrderCancelled env = .applied
        (some (max 0 (c - getPointsFromPayments env.order env.fetchPayment rates
          + getPointRedemptionPointsToDeduct env.order env.fetchCartDiscount rates))) acts 1)) := by
  refine ⟨hrates, ?_⟩
  intro c hcur hwrite
  have h1 := handleOrderCreated_eq_of_rates env rates hcust hrates hne
  have h2 := handleOrderCancelled_eq_of_rates env rates hcust hrates hne
  rw [hwrite] at h1 h2
  simp only [hcur, Option.map_some'] at h1 h2
  exact ⟨⟨_, h1⟩, ⟨_, h2⟩⟩

/-- Conversion table for the C5 witness. -/
def ratesC5 : List ConversionRateRow := [⟨"USD", 100, 1⟩]

/-- Order for the C5 witness: one payment reference and one
included-discount portion of 200 cents USD through "cd-5". -/
def ordC5 : Order :=
  ⟨some "cust-5", some ⟨some "cart-1"⟩, some ⟨some [⟨some "pay-5"⟩]⟩, none,
    some ⟨some [⟨some ⟨some "cart-discount", some "cd-5"⟩,
      some ⟨some 200, some "USD", none⟩⟩]⟩⟩

/-- Customer for the C5 witness: loyalty type attached, balance 10. -/
def custC5 : Customer :=
  ⟨some ⟨some ⟨some "t-5", some ⟨some "additional-customer-info"⟩⟩,
    some [("availablePoints", .num 10)]⟩, 3⟩

/-- Cart discount store for the C5 witness: "cd-5" is a redemption
discount scoped to cart "cart-1". -/
def fetchCdC5 : String → Option CartDiscount :=
  fun id =>
    if id = "cd-5" then
      some ⟨some ⟨some [("isPointRedemption", .bool true),
        ("referenceCart", .str "cart-1")]⟩⟩
    else none

/-- Environment for the C5 witness: a 500-cent USD payment and a
qualifying 200-cent redemption portion on cart "cart-1", balance 10. -/
def envC5 : Env :=
  ⟨ordC5, usdRatesValue,
    fun id => if id = "pay-5" then some ⟨some ⟨some 500, some "USD", none⟩⟩ else none,
    fetchCdC5, custC5, fun _ => .ok⟩

/-- C5, witness: earning 5 and deducting 2 over the same table on a
balance of 10 writes 13. -/
theorem c5_same_table_witness :
    getRedemptionRates envC5 = .ok ratesC5 ∧
    (∃ acts, handleOrderCreated envC5 = .applied (some 13) acts 1) := by
  have h := c5_same_table envC5 ratesC5
    (by simp +decide [getConversionRates, envC5, usdRatesValue, ratesC5,
      everyRows, rowOk, rowShaped, getProp, jlookup, toRow])
    (by decide) (by decide)
  refine ⟨h.1, ?_⟩
  obtain ⟨⟨acts, hacts⟩, -⟩ := h.2 10
    (by simp +decide [getCurrentAvailablePoints, availablePointsField, envC5,
      custC5, jlookup, jsToNumber, AVAILABLE_POINTS_KEY])
    rfl
  refine ⟨acts, ?_⟩
  rw [hacts]
  have hE : getPointsFromPayments envC5.order envC5.fetchPayment ratesC5 = 5 := by
    simp +decide [getPointsFromPayments, refPoints, envC5, ordC5, ratesC5,
      coalesceS, currencyToPoints, rateMatches, asciiUpper, List.find?,
      List.foldl]
    norm_num
  have hD : getPointRedemptionPointsToDeduct envC5.order envC5.fetchCartDiscount
      ratesC5 = 2 := by
    simp +decide [getPointRedemptionPointsToDeduct, portionPoints, portionBranch,
      isPointRedemptionDiscount, redemptionFlag, scopedCartRef, jsCoalesce,
      envC5, ordC5, fetchCdC5, ratesC5, coalesceS, currencyToPoints,
      rateMatches, asciiUpper, jlookup, List.find?, List.foldl]
    norm_num
  rw [hE, hD]
  norm_num

/-! Claim C6. -/

theorem handleOrderCreated_attempts (env : Env) :
    writeAttemptsOf (handleOrderCreated env) ≤ 1 := by
  by_cases hcust : truthyS env.order.customerId = true
  · cases hrates : getConversionRates env.ratesValue with
    | error e => simp [handleOrderCreated, hcust, hrates, writeAttemptsOf]
    | ok rates =>
      by_cases hlen : rates.length = 0
      · simp [handleOrderCreated, hcust, hrates, hlen, writeAttemptsOf]
      · rw [handleOrderCreated_eq_of_rates env rates hcust hrates
          (fun e => hlen (by simp [e]))]
        cases env.writeOutcome 0 <;> simp [writeAttemptsOf]
  · have hfalse : truthyS env.order.customerId = false := by
      revert hcust; cases truthyS env.order.customerId <;> simp
    simp [handleOrderCreated, hfalse, writeAttemptsOf]

theorem handleOrderCancelled_attempts (env : Env) :
    writeAttemptsOf (handleOrderCancelled env) ≤ 1 := by
  by_cases hcust : truthyS env.order.customerId = true
  · cases hrates : getConversionRates env.ratesValue with
    | error e => simp [handleOrderCancelled, hcust, hrates, writeAttemptsOf]
    | ok rates =>
      by_cases hlen : rates.length = 0
      · simp [handleOrderCancelled, hcust, hrates, hlen, writeAttemptsOf]
      · rw [handleOrderCancelled_eq_of_rates env rates hcust hrates
          (fun e => hlen (by simp [e]))]
        cases env.writeOutcome 0 <;> simp [writeAttemptsOf]
  · have hfalse : truthyS env.order.customerId = false := by
      revert hcust; cases truthyS env.order.customerId <;> simp
    simp [handleOrderCancelled, hfalse, writeAttemptsOf]

theorem handleOrderCreated_conflict_no_applied (env : Env)
    (hconf : env.writeOutcome 0 = .versionConflict)
    (w : Option ℤ) (acts : List CustomerUpdateAction) (n : ℕ) :
    handleOrderCreated env ≠ .applied w acts n := by
  intro h
  by_cases hcust : truthyS env.order.customerId = true
  · cases hrates : getConversionRates env.ratesValue with
    | error e => simp [handleOrderCreated, hcust, hrates] at h
    | ok rates =>
      by_cases hlen : rates.length = 0
      · simp [handleOrderCreated, hcust, hrates, hlen] at h
      · rw [handleOrderCreated_eq_of_rates env rates hcust hrates
          (fun e => hlen (by simp [e])), hconf] at h
        simp at h
  · have hfalse : truthyS env.order.customerId = false := by
      revert hcust; cases truthyS env.order.customerId <;> simp
    simp [handleOrderCreated, hfalse] at h

theorem handleOrderCancelled_conflict_no_applied (env : Env)
    (hconf : env.writeOutcome 0 = .versionConflict)
    (w : Option ℤ) (acts : List CustomerUpdateAction) (n : ℕ) :
    handleOrderCancelled env ≠ .applied w acts n := by
  intro h
  by_cases hcust : truthyS env.order.customerId = true
  · cases hrates : getConversionRates env.ratesValue with
    | error e => simp [handleOrderCancelled, hcust, hrates] at h
    | ok rates =>
      by_cases hlen : rates.length = 0
      · simp [handleOrderCancelled, hcust, hrates, hlen] at h
      · rw [handleOrderCancelled_eq_of_rates env rates hcust hrates
          (fun e => hlen (by simp [e])), hconf] at h
        simp at h
  · have hfalse : truthyS env.order.customerId = false := by
      revert hcust; cases truthyS env.order.customerId <;> simp
    simp [handleOrderCancelled, hfalse] at h

/-- Environment for claim C6: the first write attempt conflicts and any
later attempt would succeed. -/
def envC6 : Env :=
  ⟨⟨some "cust-6", none, none, none, none⟩, usdRatesValue,
    fun _ => none, fun _ => none, ⟨none, 7⟩,
    fun n => if n = 0 then .versionConflict else .ok⟩

/-- C6, counterexample: the first write attempt conflicts and a retry
would succeed, yet both handlers make exactly one attempt and propagate
the conflict - no re-read, no recomputation, no retried write as the
claim requires. -/
theorem c6_counterexample :
    envC6.writeOutcome 0 = .versionConflict ∧
    envC6.writeOutcome 1 = .ok ∧
    handleOrderCreated envC6 = .thrown "ConcurrentModification" 1 ∧
    handleOrderCancelled envC6 = .thrown "ConcurrentModification" 1 := by
  refine ⟨rfl, rfl, ?_, ?_⟩ <;>
    simp +decide [handleOrderCreated, handleOrderCancelled, envC6,
      getConversionRates, everyRows, rowOk, rowShaped, getProp, jlookup,
      getRedemptionRates, truthyS]

/-- C6, amended: the engine makes at most one customer-write attempt
per event; when that attempt hits a version conflict nothing is
retried - no handler run with a conflicting first write ever completes
an update, the conflict propagates after exactly one attempt. -/
theorem c6_no_retry (env : Env) :
    writeAttemptsOf (handleOrderCreated env) ≤ 1 ∧
    writeAttemptsOf (handleOrderCancelled env) ≤ 1 ∧
    (env.writeOutcome 0 = .versionConflict →
      (∀ w acts n, handleOrderCreated env ≠ .applied w acts n) ∧
      (∀ w acts n, handleOrderCancelled env ≠ .applied w acts n)) :=
  ⟨handleOrderCreated_attempts env, handleOrderCancelled_attempts env,
    fun hconf =>
      ⟨fun w acts n => handleOrderCreated_conflict_no_applied env hconf w acts n,
       fun w acts n => handleOrderCancelled_conflict_no_applied env hconf w acts n⟩⟩

/-- C6, witness for the amended theorem: on the conflicting environment
the forward handler completes no update. -/
theorem c6_no_retry_witness :
    handleOrderCreated envC6 ≠ .applied (some 0) [] 1 :=
  ((c6_no_retry envC6).2.2 rfl).1 (some 0) [] 1

/-! Claim C10. -/

/-- C10: a negative numeric stored balance is returned unchanged by the
read - negativity is not clamped on read - yet any completed forward or
reversal update writes a non-negative balance, because the max(0, ...)
clamp is applied at write time to whatever was read. -/
theorem c10_negative_read_clamped_write (env : Env) (n : ℤ)
    (hstored : availablePointsField env.customer = some (.num (n : ℚ)))
    (hneg : n < 0) :
    (getCurrentAvailablePoints env.customer = some n ∧ n < 0) ∧
    (∀ w acts k, handleOrderCreated env = .applied w acts k →
      ∃ v, w = some v ∧ 0 ≤ v) ∧
    (∀ w acts k, handleOrderCancelled env = .applied w acts k →
      ∃ v, w = some v ∧ 0 ≤ v) := by
  have hread : getCurrentAvailablePoints env.customer = some n := by
    simp [getCurrentAvailablePoints, hstored, jsToNumber, Int.floor_intCast]
  refine ⟨⟨hread, hneg⟩, ?_, ?_⟩
  · intro w acts k h
    obtain ⟨t, ht⟩ := handleOrderCreated_applied_shape env w acts k h
    rw [hread] at ht
    exact ⟨max 0 (n + t), by simpa using ht, le_max_left _ _⟩
  · intro w acts k h
    obtain ⟨t, ht⟩ := handleOrderCancelled_applied_shape env w acts k h
    rw [hread] at ht
    exact ⟨max 0 (n + t), by simpa using ht, le_max_left _ _⟩

/-- Environment for the C10 witness: stored balance -5, no payments, no
discounts, successful write. -/
def envC10 : Env :=
  ⟨⟨some "cust-10", none, none, none, none⟩, usdRatesValue,
    fun _ => none, fun _ => none,
    ⟨some ⟨none, some [("availablePoints", .num (-5))]⟩, 2⟩,
    fun _ => .ok⟩

/-- C10, witness: the read returns -5 unchanged and the forward handler
writes the clamped 0. -/
theorem c10_negative_read_clamped_write_witness :
    getCurrentAvailablePoints envC10.customer = some (-5) ∧
    handleOrderCreated envC10 = .applied (some 0)
      [.setCustomType "additional-customer-info",
       .setCustomField "availablePoints" (some 0)] 1 ∧
    (∃ v, (some (0 : ℤ)) = some v ∧ 0 ≤ v) := by
  have heval : handleOrderCreated envC10 = .applied (some 0)
      [.setCustomType "additional-customer-info",
       .setCustomField "availablePoints" (some 0)] 1 := by
    simp +decide [handleOrderCreated, envC10, getConversionRates, everyRows,
      rowOk, rowShaped, getProp, jlookup, getRedemptionRates, truthyS,
      getPointsFromPayments, getPointRedemptionPointsToDeduct,
      getCurrentAvailablePoints, availablePointsField, jsToNumber,
      needsTypeActionCreated, AVAILABLE_POINTS_KEY,
      CUSTOMER_LOYALTY_CUSTOM_TYPE, toRow]
  have h := c10_negative_read_clamped_write envC10 (-5)
    (by simp [availablePointsField, envC10, jlookup, AVAILABLE_POINTS_KEY])
    (by norm_num)
  exact ⟨h.1.1, heval, h.2.1 _ _ _ heval⟩

end Loyalty
